import Mathlib

/-!
Verification of the book-collection manager.

The repository has two client components sharing the storage slot "books":
a rich variant (the BookLibrary component) with fields
id/title/author/genre/year/description/status/rating/dateAdded, and a
minimal variant (the table page) with fields title/author/rating.
This file gives a shallow embedding of both data models and of every
collection operation, and proves or refutes the specified properties.
-/

namespace BookLib

/-- Reading status, the three string values "read", "reading", "to-read"
of the `status` field of the Book interface. -/
inductive Status where
  | read
  | reading
  | toRead
  deriving DecidableEq

/-- The string stored and compared for each status value. -/
def statusToString : Status → String
  | .read => "read"
  | .reading => "reading"
  | .toRead => "to-read"

/-- The Book interface of the rich variant: id, title, author, genre,
year, description, status, optional rating, dateAdded. -/
structure Book where
  id : String
  title : String
  author : String
  genre : String
  year : Int
  description : String
  status : Status
  rating : Option Int
  dateAdded : String
  deriving DecidableEq

/-- The form state handled by the add and edit dialogs: every Book field
except id and dateAdded. -/
structure FormData where
  title : String
  author : String
  genre : String
  year : Int
  description : String
  status : Status
  rating : Option Int
  deriving DecidableEq

/-- First sample record seeded on an empty store. -/
def gatsbyBook : Book :=
  ⟨"1", "The Great Gatsby", "F. Scott Fitzgerald", "Fiction", 1925,
   "A classic American novel set in the Jazz Age.", .read, some 5, "2024-01-15"⟩

/-- Second sample record seeded on an empty store. -/
def duneBook : Book :=
  ⟨"2", "Dune", "Frank Herbert", "Science Fiction", 1965,
   "Epic science fiction novel about desert planet Arrakis.", .reading, none, "2024-02-01"⟩

/-- The sample data installed when no persisted snapshot exists. -/
def sampleBooks : List Book := [gatsbyBook, duneBook]

/-- Building the updated record in handleEditBook: the object spread
takes every field from the form and keeps id and dateAdded from the
existing record. -/
def applyForm (b : Book) (f : FormData) : Book :=
  ⟨b.id, f.title, f.author, f.genre, f.year, f.description, f.status, f.rating, b.dateAdded⟩

/-- handleAddBook: rejects (returns the list unchanged) when title,
author or genre is the empty string, otherwise appends a record whose id
is the current clock value rendered as a string and whose dateAdded is
the current date. The clock value and date are explicit inputs here
because the component reads them from the environment. -/
def handleAddBook (books : List Book) (f : FormData) (now : Nat) (today : String) : List Book :=
  if f.title = "" ∨ f.author = "" ∨ f.genre = "" then books
  else books ++ [⟨toString now, f.title, f.author, f.genre, f.year, f.description,
                  f.status, f.rating, today⟩]

/-- handleEditBook: rejects when title, author or genre is empty,
otherwise maps over the list replacing each record whose id equals the
id of the record being edited by the form values (keeping id and
dateAdded). -/
def handleEditBook (books : List Book) (editingId : String) (f : FormData) : List Book :=
  if f.title = "" ∨ f.author = "" ∨ f.genre = "" then books
  else books.map fun book => if book.id = editingId then applyForm book f else book

/-- handleDeleteBook: keeps every record whose id differs from the given
id. -/
def handleDeleteBook (books : List Book) (targetId : String) : List Book :=
  books.filter fun book => book.id != targetId

/-- A JSON value, the parse result of the durable storage slot. The
snapshot is persisted as the JSON serialization of the book array, so we
model the slot content at the level of the parsed tree. -/
inductive Json where
  | str (s : String)
  | num (n : Int)
  | null
  | arr (xs : List Json)
  | obj (fields : List (String × Json))

/-- Key lookup on the field list of a JSON object: the first binding for
the key, as JavaScript property access reads the parsed object. -/
def lookupKey : List (String × Json) → String → Option Json
  | [], _ => none
  | (k, v) :: rest, key => if k = key then some v else lookupKey rest key

/-- JSON.stringify on a single Book object: the fields in declaration
order, with the rating key omitted exactly when rating is undefined. -/
def bookToJson (b : Book) : Json :=
  .obj ([("id", .str b.id), ("title", .str b.title), ("author", .str b.author),
         ("genre", .str b.genre), ("year", .num b.year),
         ("description", .str b.description),
         ("status", .str (statusToString b.status))] ++
        (match b.rating with
         | some r => [("rating", Json.num r)]
         | none => []) ++
        [("dateAdded", .str b.dateAdded)])

/-- JSON.stringify on the whole collection: the array of serialized
records in order. -/
def booksToJson (books : List Book) : Json :=
  .arr (books.map bookToJson)

/-- Inverse of statusToString on the three stored strings. -/
def statusFromString (s : String) : Option Status :=
  if s = "read" then some .read
  else if s = "reading" then some .reading
  else if s = "to-read" then some .toRead
  else none

/-- Reading one record back off the parsed JSON object: each field is
read by key; a missing rating key yields an undefined rating. -/
def bookFromJson : Json → Option Book
  | .obj fs =>
    match lookupKey fs "id", lookupKey fs "title", lookupKey fs "author",
          lookupKey fs "genre", lookupKey fs "year", lookupKey fs "description",
          lookupKey fs "status", lookupKey fs "dateAdded" with
    | some (.str i), some (.str t), some (.str a), some (.str g), some (.num y),
      some (.str d), some (.str st), some (.str da) =>
      match statusFromString st with
      | some stv =>
        match lookupKey fs "rating" with
        | none => some ⟨i, t, a, g, y, d, stv, none, da⟩
        | some (.num r) => some ⟨i, t, a, g, y, d, stv, some r, da⟩
        | some _ => none
      | none => none
    | _, _, _, _, _, _, _, _ => none
  | _ => none

/-- Reading the whole persisted array back into the ordered sequence. -/
def decodeBookList : List Json → Option (List Book)
  | [] => some []
  | j :: rest =>
    match bookFromJson j, decodeBookList rest with
    | some b, some bs => some (b :: bs)
    | _, _ => none

/-- Reading the snapshot back from the parsed slot content. -/
def booksFromJson : Json → Option (List Book)
  | .arr xs => decodeBookList xs
  | _ => none

/-- Whether the serialized object carries a given key. -/
def hasKey (j : Json) (key : String) : Bool :=
  match j with
  | .obj fs => (lookupKey fs key).isSome
  | _ => false

/-- Content of the durable slot when present: either a string that is
not valid JSON (carried so the truthiness of the raw string can be
tested; the empty string is never valid JSON, so the falsy present slot
is always of this form), or a parsed JSON value, whose source string is
necessarily non-empty and hence truthy. -/
inductive StoredData where
  | malformed (s : String)
  | wellFormed (j : Json)

/-- The failure JSON.parse raises on a string that is not valid JSON. -/
inductive LoadError where
  | parseFailure
  deriving DecidableEq

/-- The load effect run on mount. The guard on the loaded string is a
truthiness test, so both an absent slot and a present slot holding the
empty string take the seeding branch, which installs the sample data
(and persists it). A truthy slot is passed to JSON.parse, whose result
is installed as the state verbatim, with no validation and no
try/catch, so a non-empty malformed slot makes the load throw. -/
def loadBooksEffect : Option StoredData → Except LoadError Json
  | none => .ok (booksToJson sampleBooks)
  | some (.malformed s) =>
    if s = "" then .ok (booksToJson sampleBooks) else .error .parseFailure
  | some (.wellFormed j) => .ok j

/-- Whether the needle occurs at the head of the haystack (character
lists). -/
def matchesAt : List Char → List Char → Bool
  | _, [] => true
  | [], _ :: _ => false
  | c :: cs, d :: ds => c = d && matchesAt cs ds

/-- Whether the needle occurs anywhere in the haystack (character
lists): the substring test behind String.includes. -/
def hasSubList : List Char → List Char → Bool
  | [], needle => needle.isEmpty
  | c :: cs, needle => matchesAt (c :: cs) needle || hasSubList cs needle

/-- str.includes(sub) of JavaScript: substring containment. -/
def strIncludes (hay needle : String) : Bool :=
  hasSubList hay.data needle.data

/-- str.toLowerCase() of JavaScript: character-wise lowering. -/
def lowerStr (s : String) : String :=
  ⟨s.data.map Char.toLower⟩

/-- The filteredBooks derivation: a record passes when the lowercased
search term occurs in the lowercased title or author, the genre filter
is "all" or equals the genre, and the status filter is "all" or equals
the status string. -/
def filteredBooks (books : List Book) (searchTerm filterGenre filterStatus : String) :
    List Book :=
  books.filter fun book =>
    (strIncludes (lowerStr book.title) (lowerStr searchTerm) ||
     strIncludes (lowerStr book.author) (lowerStr searchTerm)) &&
    (filterGenre == "all" || book.genre == filterGenre) &&
    (filterStatus == "all" || statusToString book.status == filterStatus)

/-- The record predicate as the specification words it: the search text
is empty OR a case-insensitive substring of title or author, AND genre
is the wildcard "all" or equal, AND status is the wildcard "all" or
equal. Stated separately from filteredBooks so the two can be compared. -/
def specMatches (searchText genre status : String) (b : Book) : Bool :=
  (searchText == "" ||
   strIncludes (lowerStr b.title) (lowerStr searchText) ||
   strIncludes (lowerStr b.author) (lowerStr searchText)) &&
  (genre == "all" || b.genre == genre) &&
  (status == "all" || statusToString b.status == status)

/-- The four aggregate counts shown by the stats cards. -/
structure Summary where
  total : Nat
  readCount : Nat
  readingCount : Nat
  toReadCount : Nat
  deriving DecidableEq

/-- The stats cards: total is books.length and each count is the length
of the filter of books with the corresponding status string. -/
def summarize (books : List Book) : Summary :=
  ⟨books.length,
   (books.filter fun b => statusToString b.status == "read").length,
   (books.filter fun b => statusToString b.status == "reading").length,
   (books.filter fun b => statusToString b.status == "to-read").length⟩

/-- The Book shape of the minimal variant: title, author, optional
rating. -/
structure BookMin where
  title : String
  author : String
  rating : Option Int
  deriving DecidableEq

/-- deleteBook of the minimal variant: keeps every record whose title
differs from the target title AND whose author differs from the target
author. -/
def deleteBook (books : List BookMin) (book : BookMin) : List BookMin :=
  books.filter fun b => b.title != book.title && b.author != book.author

/-- onSubmit of the edit form in the minimal variant: replaces every
record whose title equals the original title AND whose author equals
the original author by the submitted values, leaving the rest alone. -/
def editBookOnSubmit (books : List BookMin) (book : BookMin) (values : BookMin) :
    List BookMin :=
  books.map fun b => if b.title = book.title ∧ b.author = book.author then values else b

/-! Helper lemmas shared by the claim theorems. -/

/-- The empty needle occurs in every haystack. -/
theorem hasSubList_nil (hay : List Char) : hasSubList hay [] = true := by
  cases hay <;> simp [hasSubList, matchesAt]

/-- str.includes of the empty string is always true. -/
theorem strIncludes_empty (hay : String) : strIncludes hay "" = true := by
  have h : ("" : String).data = [] := rfl
  simp [strIncludes, h, hasSubList_nil]

/-! The claim theorems. -/

/-- C3: for every collection and every draft in which title, author or
genre is the empty string, handleAddBook rejects the draft and returns
the collection unchanged. -/
theorem add_rejects_empty_required_fields (books : List Book) (f : FormData)
    (now : Nat) (today : String)
    (h : f.title = "" ∨ f.author = "" ∨ f.genre = "") :
    handleAddBook books f now today = books := by
  simp only [handleAddBook, if_pos h]

/-- Witness for C3 at a concrete rejected draft. -/
theorem add_rejects_empty_required_fields_witness :
    handleAddBook sampleBooks ⟨"", "X", "Fiction", 2024, "", .toRead, none⟩ 99 "2024-03-01"
      = sampleBooks :=
  add_rejects_empty_required_fields sampleBooks
    ⟨"", "X", "Fiction", 2024, "", .toRead, none⟩ 99 "2024-03-01" (Or.inl rfl)

/-- C6: handleDeleteBook is idempotent, and it leaves the collection
unchanged exactly when no record carries the deleted id, so deleting an
absent id is a silent no-op. -/
theorem delete_idempotent_and_noop_on_absent (books : List Book) (targetId : String) :
    handleDeleteBook (handleDeleteBook books targetId) targetId
      = handleDeleteBook books targetId ∧
    (handleDeleteBook books targetId = books ↔ ∀ b ∈ books, b.id ≠ targetId) := by
  constructor
  · exact List.filter_eq_self.mpr fun b hb => (List.mem_filter.mp hb).2
  · rw [handleDeleteBook, List.filter_eq_self]
    simp [bne_iff_ne]

/-- C2, counterexample: a slot holding non-empty content that is not
valid JSON makes the load raise a parse failure; it does not produce the
empty collection, so the corruption is propagated, not silently
absorbed. -/
theorem load_malformed_raises :
    loadBooksEffect (some (.malformed "not json")) = .error .parseFailure ∧
    loadBooksEffect (some (.malformed "not json")) ≠ .ok (booksToJson []) := by
  exact ⟨rfl, by simp [loadBooksEffect]⟩

/-- C2, amended: a present slot holding the empty string is falsy, so it
is treated like an absent slot and seeds the sample data; a present slot
with non-empty content that is not valid JSON raises a parse failure to
the caller; well-formed JSON is installed verbatim with no shape check;
the fallback of the seeding branch is the sample records, never an empty
collection. -/
theorem load_corruption_behavior :
    (∀ s, s ≠ "" → loadBooksEffect (some (.malformed s)) = .error .parseFailure) ∧
    loadBooksEffect (some (.malformed "")) = .ok (booksToJson sampleBooks) ∧
    (∀ j, loadBooksEffect (some (.wellFormed j)) = .ok j) ∧
    loadBooksEffect none = .ok (booksToJson sampleBooks) := by
  refine ⟨fun s hs => ?_, rfl, fun _ => rfl, rfl⟩
  simp [loadBooksEffect, hs]

/-- C9: the minimal-variant deleteBook retains exactly the records whose
title differs from the target title AND whose author differs from the
target author, in the original order, so every record sharing the target
title or the target author is removed along with the target. -/
theorem deleteBook_matches_title_and_author (books : List BookMin) (book : BookMin) :
    (∀ b ∈ deleteBook books book, b.title ≠ book.title ∧ b.author ≠ book.author) ∧
    (∀ b ∈ books, b.title ≠ book.title → b.author ≠ book.author →
      b ∈ deleteBook books book) ∧
    (∀ b ∈ books, b.title = book.title ∨ b.author = book.author →
      b ∉ deleteBook books book) ∧
    (deleteBook books book).Sublist books := by
  refine ⟨?_, ?_, ?_, List.filter_sublist books⟩
  · intro b hb
    have h := (List.mem_filter.mp hb).2
    simpa [bne_iff_ne] using h
  · intro b hb h1 h2
    exact List.mem_filter.mpr ⟨hb, by simp [bne_iff_ne, h1, h2]⟩
  · intro b _ hor hmem
    have h := (List.mem_filter.mp hmem).2
    simp only [Bool.and_eq_true, bne_iff_ne, ne_eq] at h
    rcases hor with h1 | h2
    · exact h.1 h1
    · exact h.2 h2

/-- C10: the minimal-variant edit submission keeps the length of the
collection, and at every position the record is replaced by the
submitted values exactly when its title and author both equal the
original ones, and kept unchanged otherwise. -/
theorem editBookOnSubmit_replaces_all_matching (books : List BookMin) (book vals : BookMin) :
    (editBookOnSubmit books book vals).length = books.length ∧
    ∀ i : Nat, (editBookOnSubmit books book vals)[i]? =
      books[i]?.map fun b =>
        if b.title = book.title ∧ b.author = book.author then vals else b := by
  refine ⟨?_, fun i => ?_⟩ <;> simp [editBookOnSubmit]

/-- C5: when the collection holds exactly one record with the edited id
and the patch has non-empty title, author and genre, handleEditBook
rewrites that record in place from the form while keeping its id, its
dateAdded and its position, and leaves every other record untouched. -/
theorem edit_preserves_identity_and_position
    (pre post : List Book) (b : Book) (f : FormData)
    (hpre : ∀ x ∈ pre, x.id ≠ b.id) (hpost : ∀ x ∈ post, x.id ≠ b.id)
    (ht : f.title ≠ "") (ha : f.author ≠ "") (hg : f.genre ≠ "") :
    handleEditBook (pre ++ b :: post) b.id f = pre ++ applyForm b f :: post ∧
    (applyForm b f).id = b.id ∧ (applyForm b f).dateAdded = b.dateAdded ∧
    (applyForm b f).title = f.title ∧ (applyForm b f).author = f.author ∧
    (applyForm b f).genre = f.genre ∧ (applyForm b f).year = f.year ∧
    (applyForm b f).description = f.description ∧
    (applyForm b f).status = f.status ∧ (applyForm b f).rating = f.rating := by
  refine ⟨?_, rfl, rfl, rfl, rfl, rfl, rfl, rfl, rfl, rfl⟩
  have hcond : ¬ (f.title = "" ∨ f.author = "" ∨ f.genre = "") := by
    push_neg
    exact ⟨ht, ha, hg⟩
  have hmap : ∀ (l : List Book), (∀ x ∈ l, x.id ≠ b.id) →
      (l.map fun book => if book.id = b.id then applyForm book f else book) = l := by
    intro l hl
    have h1 : ∀ x ∈ l, (if x.id = b.id then applyForm x f else x) = x :=
      fun x hx => if_neg (hl x hx)
    rw [List.map_congr_left h1]
    simp
  simp only [handleEditBook, if_neg hcond, List.map_append, List.map_cons]
  rw [hmap pre hpre, hmap post hpost]
  simp

/-- Witness for C5 at a concrete collection and patch. -/
theorem edit_preserves_identity_and_position_witness :
    handleEditBook [duneBook, gatsbyBook] gatsbyBook.id
        ⟨"Gatsby", "Fitzgerald", "Fiction", 1925, "", .read, some 4⟩
      = [duneBook, applyForm gatsbyBook ⟨"Gatsby", "Fitzgerald", "Fiction", 1925, "", .read, some 4⟩] ∧
    (applyForm gatsbyBook ⟨"Gatsby", "Fitzgerald", "Fiction", 1925, "", .read, some 4⟩).id
      = gatsbyBook.id ∧
    (applyForm gatsbyBook ⟨"Gatsby", "Fitzgerald", "Fiction", 1925, "", .read, some 4⟩).dateAdded
      = gatsbyBook.dateAdded ∧
    (applyForm gatsbyBook ⟨"Gatsby", "Fitzgerald", "Fiction", 1925, "", .read, some 4⟩).title
      = "Gatsby" ∧
    (applyForm gatsbyBook ⟨"Gatsby", "Fitzgerald", "Fiction", 1925, "", .read, some 4⟩).author
      = "Fitzgerald" ∧
    (applyForm gatsbyBook ⟨"Gatsby", "Fitzgerald", "Fiction", 1925, "", .read, some 4⟩).genre
      = "Fiction" ∧
    (applyForm gatsbyBook ⟨"Gatsby", "Fitzgerald", "Fiction", 1925, "", .read, some 4⟩).year
      = 1925 ∧
    (applyForm gatsbyBook ⟨"Gatsby", "Fitzgerald", "Fiction", 1925, "", .read, some 4⟩).description
      = "" ∧
    (applyForm gatsbyBook ⟨"Gatsby", "Fitzgerald", "Fiction", 1925, "", .read, some 4⟩).status
      = .read ∧
    (applyForm gatsbyBook ⟨"Gatsby", "Fitzgerald", "Fiction", 1925, "", .read, some 4⟩).rating
      = some 4 :=
  edit_preserves_identity_and_position [duneBook] [] gatsbyBook
    ⟨"Gatsby", "Fitzgerald", "Fiction", 1925, "", .read, some 4⟩
    (by decide) (by decide) (by decide) (by decide) (by decide)

/-- The stored status string determines the status value. -/
theorem statusString_eq_read (s : Status) :
    (statusToString s == "read") = (s == Status.read) := by
  cases s <;> rfl

/-- The stored status string determines the status value. -/
theorem statusString_eq_reading (s : Status) :
    (statusToString s == "reading") = (s == Status.reading) := by
  cases s <;> rfl

/-- The stored status string determines the status value. -/
theorem statusString_eq_toRead (s : Status) :
    (statusToString s == "to-read") = (s == Status.toRead) := by
  cases s <;> rfl

/-- C8: the stats cards report the collection size as total and the
number of records of each status as the three counts, and the three
counts always sum to the total. -/
theorem summarize_counts_partition (books : List Book) :
    (summarize books).total = books.length ∧
    (summarize books).readCount = books.countP (fun b => b.status == Status.read) ∧
    (summarize books).readingCount = books.countP (fun b => b.status == Status.reading) ∧
    (summarize books).toReadCount = books.countP (fun b => b.status == Status.toRead) ∧
    (summarize books).readCount + (summarize books).readingCount +
      (summarize books).toReadCount = (summarize books).total := by
  have hsum : books.countP (fun b => b.status == Status.read) +
      books.countP (fun b => b.status == Status.reading) +
      books.countP (fun b => b.status == Status.toRead) = books.length := by
    induction books with
    | nil => rfl
    | cons x xs ih =>
      cases hx : x.status <;> simp [List.countP_cons, hx] <;> omega
  have h1 : (summarize books).readCount
      = books.countP (fun b => b.status == Status.read) := by
    rw [List.countP_eq_length_filter]
    exact congrArg List.length
      (List.filter_congr fun b _ => statusString_eq_read b.status)
  have h2 : (summarize books).readingCount
      = books.countP (fun b => b.status == Status.reading) := by
    rw [List.countP_eq_length_filter]
    exact congrArg List.length
      (List.filter_congr fun b _ => statusString_eq_reading b.status)
  have h3 : (summarize books).toReadCount
      = books.countP (fun b => b.status == Status.toRead) := by
    rw [List.countP_eq_length_filter]
    exact congrArg List.length
      (List.filter_congr fun b _ => statusString_eq_toRead b.status)
  exact ⟨rfl, h1, h2, h3, by rw [h1, h2, h3]; exact hsum⟩

/-- C4: filteredBooks computes exactly the ordered subsequence selected
by the predicate as the specification words it (the empty-search
disjunct is redundant because the empty string occurs in every string),
and on the two-record snapshot the query "great" with both filters on
the wildcard returns exactly the Gatsby record. -/
theorem filteredBooks_eq_spec_and_gatsby :
    (∀ (books : List Book) (searchText genreFilter statusFilter : String),
      filteredBooks books searchText genreFilter statusFilter =
        books.filter (specMatches searchText genreFilter statusFilter)) ∧
    filteredBooks [duneBook, gatsbyBook] "great" "all" "all" = [gatsbyBook] := by
  constructor
  · intro books searchText genreFilter statusFilter
    simp only [filteredBooks]
    refine List.filter_congr ?_
    intro b _
    by_cases h : searchText = ""
    · subst h
      have hl : lowerStr "" = "" := rfl
      simp [specMatches, hl, strIncludes_empty]
    · have hb : (searchText == "") = false := beq_eq_false_iff_ne.mpr h
      simp [specMatches, hb]
  · decide

/-- C1, counterexample: starting from the empty collection, two
successful adds both invoked at clock value 5 assign the id "5" twice,
so the id of the second new record equals the id of a record already in
the collection and the ids are not pairwise distinct. -/
theorem addBook_id_collision :
    ((handleAddBook
        (handleAddBook [] ⟨"A", "B", "Fiction", 2024, "", .toRead, none⟩ 5 "2024-03-01")
        ⟨"A", "B", "Fiction", 2024, "", .toRead, none⟩ 5 "2024-03-01").map Book.id)
      = ["5", "5"] ∧
    ¬ ((handleAddBook
        (handleAddBook [] ⟨"A", "B", "Fiction", 2024, "", .toRead, none⟩ 5 "2024-03-01")
        ⟨"A", "B", "Fiction", 2024, "", .toRead, none⟩ 5 "2024-03-01").map Book.id).Nodup := by
  decide

/-- C1, amended: a successful add appends a record whose id is the clock
value as a string, so whenever that string differs from every id already
in the collection (in particular under a strictly increasing clock), the
new id is distinct from all existing ids and distinctness of the ids is
preserved. -/
theorem addBook_fresh_clock_unique_ids (books : List Book) (f : FormData)
    (now : Nat) (today : String)
    (hfresh : toString now ∉ books.map Book.id)
    (ht : f.title ≠ "") (ha : f.author ≠ "") (hg : f.genre ≠ "") :
    (handleAddBook books f now today).map Book.id
      = books.map Book.id ++ [toString now] ∧
    ((books.map Book.id).Nodup →
      ((handleAddBook books f now today).map Book.id).Nodup) := by
  have hcond : ¬ (f.title = "" ∨ f.author = "" ∨ f.genre = "") := by
    push_neg
    exact ⟨ht, ha, hg⟩
  have hmap : (handleAddBook books f now today).map Book.id
      = books.map Book.id ++ [toString now] := by
    simp [handleAddBook, if_neg hcond]
  refine ⟨hmap, fun hnd => ?_⟩
  rw [hmap, List.nodup_append]
  refine ⟨hnd, List.nodup_singleton _, ?_⟩
  intro a ha1 ha2
  rw [List.mem_singleton] at ha2
  subst ha2
  exact hfresh ha1

/-- Witness for the amended C1 at the seeded collection and a fresh
clock value. -/
theorem addBook_fresh_clock_unique_ids_witness :
    (handleAddBook sampleBooks ⟨"A", "B", "Fiction", 2024, "", .toRead, none⟩ 5
        "2024-03-01").map Book.id
      = sampleBooks.map Book.id ++ [toString 5] ∧
    ((sampleBooks.map Book.id).Nodup →
      ((handleAddBook sampleBooks ⟨"A", "B", "Fiction", 2024, "", .toRead, none⟩ 5
          "2024-03-01").map Book.id).Nodup) :=
  addBook_fresh_clock_unique_ids sampleBooks
    ⟨"A", "B", "Fiction", 2024, "", .toRead, none⟩ 5 "2024-03-01"
    (by decide) (by decide) (by decide) (by decide)

/-- One serialized record reads back unchanged. -/
theorem bookFromJson_bookToJson (b : Book) : bookFromJson (bookToJson b) = some b := by
  cases b with
  | mk i t a g y d s r da => cases s <;> cases r <;> rfl

/-- The serialized array reads back as the original sequence. -/
theorem decode_encode (bs : List Book) : decodeBookList (bs.map bookToJson) = some bs := by
  induction bs with
  | nil => rfl
  | cons b rest ih => simp [decodeBookList, bookFromJson_bookToJson, ih]

/-- C7: the persisted snapshot reloads verbatim from the slot, reading
it back reconstructs the identical ordered sequence field for field, and
the stored form carries a rating key exactly when the record has a
rating. -/
theorem persist_reload_roundtrip :
    (∀ bs : List Book,
      loadBooksEffect (some (.wellFormed (booksToJson bs))) = .ok (booksToJson bs)) ∧
    (∀ bs : List Book, booksFromJson (booksToJson bs) = some bs) ∧
    (∀ b : Book, hasKey (bookToJson b) "rating" = b.rating.isSome) := by
  refine ⟨fun _ => rfl, fun bs => ?_, fun b => ?_⟩
  · simp [booksFromJson, booksToJson, decode_encode]
  · cases b with
    | mk i t a g y d s r da => cases r <;> rfl

end BookLib
